import Mathlib

/-!
Shallow embedding of the CHIP-8 interpreter in src/main.rs (ryone9re/chip8-rs).

Machine integers are modelled as Nat with explicit reduction modulo 2^8 or
2^16 at the points where the Rust code wraps; an operation that can abort the
process in a debug build (an out-of-bounds array index, or a checked add or
sub that overflows its integer type) is modelled as returning none.  The u8
and u16 fields of the machine therefore hold plain Nat values; the theorems
that need the 8-bit range of a register value take it as a hypothesis, since
the Rust types guarantee it.
-/

/-- Write one register slot: registers[idx] = v. -/
def setReg (regs : Nat → Nat) (idx v : Nat) : Nat → Nat :=
  fun r => if r = idx then v else regs r

/-- Write one memory byte: memory[a] = v. -/
def setMem (m : Nat → Nat) (a v : Nat) : Nat → Nat :=
  fun b => if b = a then v else m b

/-- Write one framebuffer cell: display[row][col] = v. -/
def setPix (d : Nat → Nat → Nat) (row col v : Nat) : Nat → Nat → Nat :=
  fun a b => if a = row ∧ b = col then v else d a b

/-- u8 wrapping_add on byte values. -/
def wrappingAdd8 (a b : Nat) : Nat := (a + b) % 256

/-- u8 wrapping_sub on byte values (b is a u8, hence the reduction of b). -/
def wrappingSub8 (a b : Nat) : Nat := (a + 256 - b % 256) % 256

/-- FONTSET: the 80-byte glyph table, 5 bytes per hexadecimal digit. -/
def FONTSET : List Nat :=
  [0xF0, 0x90, 0x90, 0x90, 0xF0,
   0x20, 0x60, 0x20, 0x20, 0x70,
   0xF0, 0x10, 0xF0, 0x80, 0xF0,
   0xF0, 0x10, 0xF0, 0x10, 0xF0,
   0x90, 0x90, 0xF0, 0x10, 0x10,
   0xF0, 0x80, 0xF0, 0x10, 0xF0,
   0xF0, 0x80, 0xF0, 0x90, 0xF0,
   0xF0, 0x10, 0x20, 0x40, 0x40,
   0xF0, 0x90, 0xF0, 0x90, 0xF0,
   0xF0, 0x90, 0xF0, 0x10, 0xF0,
   0xF0, 0x90, 0xF0, 0x90, 0x90,
   0xE0, 0x90, 0xE0, 0x90, 0xE0,
   0xF0, 0x80, 0x80, 0x80, 0xF0,
   0xE0, 0x90, 0x90, 0x90, 0xE0,
   0xF0, 0x80, 0xF0, 0x80, 0xF0,
   0xF0, 0x80, 0xF0, 0x80, 0x80]

/-- SCREEN_WIDTH from the source. -/
def SCREEN_WIDTH : Nat := 512

/-- SCREEN_HEIGHT from the source. -/
def SCREEN_HEIGHT : Nat := 384

/-- The machine state of struct Chip8.  The display field is indexed the way
the code accesses it, display[screen_y][screen_x]. -/
structure Chip8 where
  memory : Nat → Nat
  registers : Nat → Nat
  stack : Nat → Nat
  i : Nat
  pc : Nat
  sp : Nat
  delay : Nat
  sound : Nat
  keyboard : Nat → Bool
  display : Nat → Nat → Nat

/-- Chip8::new - zeroed state, fontset copied to the base of memory byte by
byte, pc set to 0x200. -/
def Chip8.new : Chip8 :=
  { memory := (List.range 80).foldl (fun m k => setMem m k (FONTSET.getD k 0)) (fun _ => 0)
  , registers := fun _ => 0
  , stack := fun _ => 0
  , i := 0
  , pc := 0x200
  , sp := 0
  , delay := 0
  , sound := 0
  , keyboard := fun _ => false
  , display := fun _ _ => 0 }

/-- pc += 2, with the u16 overflow check of a debug build. -/
def Chip8.skipNext (s : Chip8) : Option Chip8 :=
  if s.pc + 2 < 65536 then some { s with pc := s.pc + 2 } else none

/-- 00E0 - CLS.  The body of Chip8::cls in the source is empty (the clearing
is left as an unimplemented stub), so the state is returned unchanged. -/
def Chip8.cls (s : Chip8) : Option Chip8 :=
  some s

/-- 00EE - RET: pc = stack[sp]; sp -= 1.  The read of stack[sp] aborts when
sp is outside the 16-entry array, and the decrement aborts (u8 underflow in a
debug build) when sp = 0. -/
def Chip8.ret (s : Chip8) : Option Chip8 :=
  if s.sp < 16 then
    if s.sp = 0 then none
    else some { s with pc := s.stack s.sp, sp := s.sp - 1 }
  else none

/-- 1NNN - JP addr. -/
def Chip8.jp (nnn : Nat) (s : Chip8) : Option Chip8 :=
  some { s with pc := nnn }

/-- 2NNN - CALL addr: sp += 1; stack[sp] = pc; pc = nnn.  The increment
aborts on u8 overflow, and the store aborts when the incremented sp is
outside the 16-entry stack array. -/
def Chip8.call (nnn : Nat) (s : Chip8) : Option Chip8 :=
  if s.sp + 1 < 256 then
    if s.sp + 1 < 16 then
      let st2 := fun j => if j = s.sp + 1 then s.pc else s.stack j
      some { s with sp := s.sp + 1, stack := st2, pc := nnn }
    else none
  else none

/-- 3XKK - SE Vx, byte. -/
def Chip8.se (x kk : Nat) (s : Chip8) : Option Chip8 :=
  if s.registers x = kk then s.skipNext else some s

/-- 4XKK - SNE Vx, byte. -/
def Chip8.sne (x kk : Nat) (s : Chip8) : Option Chip8 :=
  if s.registers x ≠ kk then s.skipNext else some s

/-- 5XY0 - SE Vx, Vy. -/
def Chip8.se_vx_vy (x y : Nat) (s : Chip8) : Option Chip8 :=
  if s.registers x = s.registers y then s.skipNext else some s

/-- 6XKK - LD Vx, byte. -/
def Chip8.ld (x kk : Nat) (s : Chip8) : Option Chip8 :=
  some { s with registers := setReg s.registers x kk }

/-- 7XKK - ADD Vx, byte (wrapping_add, no flag). -/
def Chip8.add (x kk : Nat) (s : Chip8) : Option Chip8 :=
  some { s with registers := setReg s.registers x (wrappingAdd8 (s.registers x) kk) }

/-- 8XY0 - LD Vx, Vy. -/
def Chip8.ld_vx_vy (x y : Nat) (s : Chip8) : Option Chip8 :=
  some { s with registers := setReg s.registers x (s.registers y) }

/-- 8XY1 - OR Vx, Vy. -/
def Chip8.or (x y : Nat) (s : Chip8) : Option Chip8 :=
  some { s with registers := setReg s.registers x (s.registers x ||| s.registers y) }

/-- 8XY2 - AND Vx, Vy. -/
def Chip8.and (x y : Nat) (s : Chip8) : Option Chip8 :=
  some { s with registers := setReg s.registers x (s.registers x &&& s.registers y) }

/-- 8XY3 - XOR Vx, Vy. -/
def Chip8.xor (x y : Nat) (s : Chip8) : Option Chip8 :=
  some { s with registers := setReg s.registers x (s.registers x ^^^ s.registers y) }

/-- 8XY4 - ADD Vx, Vy: overflowing_add reads both operands, then the result
is stored to Vx and afterwards the overflow flag to VF (so for X = 15 the
flag store overwrites the sum). -/
def Chip8.add_vx_vy (x y : Nat) (s : Chip8) : Option Chip8 :=
  let sum := s.registers x + s.registers y
  let regs2 := setReg (setReg s.registers x (sum % 256)) 15 (if 256 ≤ sum then 1 else 0)
  some { s with registers := regs2 }

/-- 8XY5 - SUB Vx, Vy: VF is written first, then Vx is recomputed from the
register file that already contains the new VF. -/
def Chip8.sub (x y : Nat) (s : Chip8) : Option Chip8 :=
  let r1 := setReg s.registers 15 (if s.registers y < s.registers x then 1 else 0)
  some { s with registers := setReg r1 x (wrappingSub8 (r1 x) (r1 y)) }

/-- 8XY6 - SHR Vx: VF gets the low bit first, then Vx is shifted (reading
the register file that already contains the new VF). -/
def Chip8.shr (x : Nat) (s : Chip8) : Option Chip8 :=
  let r1 := setReg s.registers 15 (s.registers x &&& 0x01)
  some { s with registers := setReg r1 x (r1 x >>> 1) }

/-- 8XY7 - SUBN Vx, Vy: VF is written first, then Vx = Vy - Vx is computed
from the register file that already contains the new VF. -/
def Chip8.subn (x y : Nat) (s : Chip8) : Option Chip8 :=
  let r1 := setReg s.registers 15 (if s.registers x < s.registers y then 1 else 0)
  some { s with registers := setReg r1 x (wrappingSub8 (r1 y) (r1 x)) }

/-- 8XYE - SHL Vx: VF gets the high bit first, then Vx is shifted left with
the u8 truncation of the shifted-out bit. -/
def Chip8.shl (x : Nat) (s : Chip8) : Option Chip8 :=
  let r1 := setReg s.registers 15 ((s.registers x &&& 0x80) >>> 7)
  some { s with registers := setReg r1 x ((r1 x <<< 1) % 256) }

/-- 9XY0 - SNE Vx, Vy. -/
def Chip8.sne_vx_vy (x y : Nat) (s : Chip8) : Option Chip8 :=
  if s.registers x ≠ s.registers y then s.skipNext else some s

/-- ANNN - LD I, addr. -/
def Chip8.ld_i (nnn : Nat) (s : Chip8) : Option Chip8 :=
  some { s with i := nnn }

/-- BNNN - JP V0, addr: pc = V0 + nnn (a u8 plus a 12-bit immediate never
overflows u16). -/
def Chip8.jp_v0 (nnn : Nat) (s : Chip8) : Option Chip8 :=
  some { s with pc := s.registers 0 + nnn }

/-- CXKK - RND Vx, byte: the random byte is supplied as an oracle value. -/
def Chip8.rnd (rand x kk : Nat) (s : Chip8) : Option Chip8 :=
  some { s with registers := setReg s.registers x ((rand % 256) &&& kk) }

/-- Bit j (counted from the most significant bit) of a sprite row byte:
(line >> (7 - j)) & 0x01. -/
def bitAt (line j : Nat) : Nat := (line >>> (7 - j)) &&& 0x01

/-- The inner loop of Chip8::drw over the 8 bits of one sprite row.  dc is
the (display, collision) accumulator.  The read of
display[screen_y][screen_x] aborts when screen_x reaches the inner array
bound SCREEN_HEIGHT = 384 (the declared display type nests the two extents
in the opposite order of the accesses). -/
def drwRow (line xc yr : Nat) : List Nat → ((Nat → Nat → Nat) × Bool) → Option ((Nat → Nat → Nat) × Bool)
  | [], dc => some dc
  | j :: js, dc =>
      let spritePixel := bitAt line j
      let screenX := (xc + j) % SCREEN_WIDTH
      let screenY := yr % SCREEN_HEIGHT
      if screenX < SCREEN_HEIGHT then
        let screenPixel := dc.1 screenY screenX
        drwRow line xc yr js
          (setPix dc.1 screenY screenX (screenPixel ^^^ spritePixel),
           dc.2 || ((screenPixel == 1) && (spritePixel == 1)))
      else none

/-- The outer loop of Chip8::drw over the n sprite rows.  The read of
memory[i + row] aborts when the address leaves the 4096-byte memory. -/
def drwRows (mem : Nat → Nat) (ir xc yc : Nat) : List Nat → ((Nat → Nat → Nat) × Bool) → Option ((Nat → Nat → Nat) × Bool)
  | [], dc => some dc
  | r :: rs, dc =>
      if ir + r < 4096 then
        match drwRow (mem (ir + r)) xc (yc + r) (List.range 8) dc with
        | some dc2 => drwRows mem ir xc yc rs dc2
        | none => none
      else none

/-- DXYN - DRW Vx, Vy, nibble: XOR-draw the n-row sprite at memory[i..] at
the position taken from the two registers, then store the collision flag to
VF. -/
def Chip8.drw (x y n : Nat) (s : Chip8) : Option Chip8 :=
  let xc := s.registers x
  let yc := s.registers y
  match drwRows s.memory s.i xc yc (List.range n) (s.display, false) with
  | some dc => some { s with display := dc.1, registers := setReg s.registers 15 (if dc.2 then 1 else 0) }
  | none => none

/-- EX9E - SKP Vx.  The keyboard index aborts when the register value is
outside the 16-entry keyboard array. -/
def Chip8.skp (x : Nat) (s : Chip8) : Option Chip8 :=
  if s.registers x < 16 then
    if s.keyboard (s.registers x) then s.skipNext else some s
  else none

/-- EXA1 - SKNP Vx. -/
def Chip8.sknp (x : Nat) (s : Chip8) : Option Chip8 :=
  if s.registers x < 16 then
    if !(s.keyboard (s.registers x)) then s.skipNext else some s
  else none

/-- FX07 - LD Vx, DT. -/
def Chip8.ld_vx_dt (x : Nat) (s : Chip8) : Option Chip8 :=
  some { s with registers := setReg s.registers x s.delay }

/-- FX0A - LD Vx, K: busy-waits until some key is pressed and stores the
index of the first pressed key.  When no key is pressed the Rust loop never
terminates; that case is modelled as none (no successor state). -/
def Chip8.ld_vx_k (x : Nat) (s : Chip8) : Option Chip8 :=
  match (List.range 16).find? (fun k => s.keyboard k) with
  | some idx => some { s with registers := setReg s.registers x idx }
  | none => none

/-- FX15 - LD DT, Vx. -/
def Chip8.ld_dt_vx (x : Nat) (s : Chip8) : Option Chip8 :=
  some { s with delay := s.registers x }

/-- FX18 - LD ST, Vx. -/
def Chip8.ld_st_vx (x : Nat) (s : Chip8) : Option Chip8 :=
  some { s with sound := s.registers x }

/-- FX1E - ADD I, Vx, with the u16 overflow check of a debug build. -/
def Chip8.add_i_vx (x : Nat) (s : Chip8) : Option Chip8 :=
  if s.i + s.registers x < 65536 then some { s with i := s.i + s.registers x } else none

/-- FX29 - LD F, Vx: i = registers[x] * 5 (cast usize to u16 at the end;
no masking of the register value to its low nibble). -/
def Chip8.ld_f_vx (x : Nat) (s : Chip8) : Option Chip8 :=
  some { s with i := (s.registers x * 5) % 65536 }

/-- FX33 - LD B, Vx: store the decimal digits of Vx at memory[i..i+2];
aborts when an address leaves the 4096-byte memory. -/
def Chip8.ld_b_vx (x : Nat) (s : Chip8) : Option Chip8 :=
  let value := s.registers x
  let m3 := setMem (setMem (setMem s.memory s.i (value / 100)) (s.i + 1) ((value / 10) % 10)) (s.i + 2) (value % 10)
  if s.i + 2 < 4096 then some { s with memory := m3 } else none

/-- The loop of FX55: memory[i + k] = registers[k] for k in the list, with
the memory bound check of each store. -/
def writeSeq (m : Nat → Nat) (ir : Nat) (f : Nat → Nat) : List Nat → Option (Nat → Nat)
  | [] => some m
  | k :: ks => if ir + k < 4096 then writeSeq (setMem m (ir + k) (f k)) ir f ks else none

/-- FX55 - LD [I], Vx: store V0..=Vx at memory[i..]. -/
def Chip8.ld_i_vx (x : Nat) (s : Chip8) : Option Chip8 :=
  match writeSeq s.memory s.i (fun k => s.registers k) (List.range (x + 1)) with
  | some m => some { s with memory := m }
  | none => none

/-- The loop of FX65: registers[k] = memory[i + k] for k in the list, with
the memory bound check of each load. -/
def readSeq (regs : Nat → Nat) (m : Nat → Nat) (ir : Nat) : List Nat → Option (Nat → Nat)
  | [] => some regs
  | k :: ks => if ir + k < 4096 then readSeq (setReg regs k (m (ir + k))) m ir ks else none

/-- FX65 - LD Vx, [I]: load V0..=Vx from memory[i..]. -/
def Chip8.ld_vx_i (x : Nat) (s : Chip8) : Option Chip8 :=
  match readSeq s.registers s.memory s.i (List.range (x + 1)) with
  | some regs => some { s with registers := regs }
  | none => none

/-- Chip8::execute_opcode: field extraction by the fixed masks, then the
dispatch match of the source.  A branch that panics (unknown opcode) is
none.  rand is the oracle byte consumed by CXKK. -/
def Chip8.execute_opcode (rand opcode : Nat) (s : Chip8) : Option Chip8 :=
  let x := (opcode &&& 0x0F00) >>> 8
  let y := (opcode &&& 0x00F0) >>> 4
  let n := opcode &&& 0x000F
  let nnn := opcode &&& 0x0FFF
  let kk := opcode &&& 0x00FF
  match opcode &&& 0xF000 with
  | 0x0000 =>
      match opcode with
      | 0x00E0 => s.cls
      | 0x00EE => s.ret
      | _ => none
  | 0x1000 => s.jp nnn
  | 0x2000 => s.call nnn
  | 0x3000 => s.se x kk
  | 0x4000 => s.sne x kk
  | 0x5000 => s.se_vx_vy x y
  | 0x6000 => s.ld x kk
  | 0x7000 => s.add x kk
  | 0x8000 =>
      match opcode &&& 0x000F with
      | 0x0000 => s.ld_vx_vy x y
      | 0x0001 => s.or x y
      | 0x0002 => s.and x y
      | 0x0003 => s.xor x y
      | 0x0004 => s.add_vx_vy x y
      | 0x0005 => s.sub x y
      | 0x0006 => s.shr x
      | 0x0007 => s.subn x y
      | 0x000E => s.shl x
      | _ => none
  | 0x9000 => s.sne_vx_vy x y
  | 0xA000 => s.ld_i nnn
  | 0xB000 => s.jp_v0 nnn
  | 0xC000 => s.rnd rand x kk
  | 0xD000 => s.drw x y n
  | 0xE000 =>
      match opcode &&& 0x00FF with
      | 0x009E => s.skp x
      | 0x00A1 => s.sknp x
      | _ => none
  | 0xF000 =>
      match opcode &&& 0x00FF with
      | 0x0007 => s.ld_vx_dt x
      | 0x000A => s.ld_vx_k x
      | 0x0015 => s.ld_dt_vx x
      | 0x0018 => s.ld_st_vx x
      | 0x001E => s.add_i_vx x
      | 0x0029 => s.ld_f_vx x
      | 0x0033 => s.ld_b_vx x
      | 0x0055 => s.ld_i_vx x
      | 0x0065 => s.ld_vx_i x
      | _ => none
  | _ => none

/-- The timer update at the end of one iteration of the main loop of
Chip8::run. -/
def tickTimers (s : Chip8) : Chip8 :=
  let s1 := if 0 < s.delay then { s with delay := s.delay - 1 } else s
  if 0 < s1.sound then { s1 with sound := s1.sound - 1 } else s1

/-- One iteration of the main loop of Chip8::run: fetch the big-endian
instruction word at pc (the two byte reads abort outside the 4096-byte
memory), execute it, then update the timers.  Note the loop never advances
pc itself. -/
def Chip8.cycle (rand : Nat) (s : Chip8) : Option Chip8 :=
  if s.pc + 1 < 4096 then
    match Chip8.execute_opcode rand ((s.memory s.pc <<< 8) ||| s.memory (s.pc + 1)) s with
    | some s2 => some (tickTimers s2)
    | none => none
  else none

/-- k iterations of the main loop (the Rust loop itself never terminates;
this observes the state after the first k iterations). -/
def Chip8.cycles (rand : Nat → Nat) : Nat → Chip8 → Option Chip8
  | 0, s => some s
  | k + 1, s =>
      match Chip8.cycle (rand k) s with
      | some s2 => Chip8.cycles rand k s2
      | none => none

/-- The program-load loop at the top of Chip8::run: memory[0x200 + k] =
program[k], with the bound check of each store. -/
def loadBytes (m : Nat → Nat) (base : Nat) : List Nat → Option (Nat → Nat)
  | [] => some m
  | b :: bs => if base < 4096 then loadBytes (setMem m base b) (base + 1) bs else none

/-- Chip8::run observed for k iterations of its main loop: load the program
at 0x200, then run k fetch-decode-execute-timer cycles. -/
def Chip8.runFor (s : Chip8) (program : List Nat) (rand : Nat → Nat) (k : Nat) : Option Chip8 :=
  match loadBytes s.memory 0x200 program with
  | some m => Chip8.cycles rand k { s with memory := m }
  | none => none

/-! ## Concrete states used by witnesses and counterexamples -/

/-- The two-instruction program of the end-to-end scenario: jump to 0x206,
padding, then at 0x206 load V0 with 0x2A. -/
def c1prog : List Nat := [0x12, 0x06, 0x00, 0x00, 0x00, 0x00, 0x60, 0x2A]

/-- A program that calls the subroutine at 0x204, whose body is a return. -/
def c2prog : List Nat := [0x22, 0x04, 0x00, 0x00, 0x00, 0xEE]

/-- A state with one framebuffer pixel set. -/
def sC4 : Chip8 := { Chip8.new with display := setPix Chip8.new.display 0 0 1 }

/-- A state with V15 = 5 and V0 = 3. -/
def sC5 : Chip8 := { Chip8.new with registers := setReg (setReg Chip8.new.registers 15 5) 0 3 }

/-- A state with V0 = 10 and V15 = 3. -/
def sC6 : Chip8 := { Chip8.new with registers := setReg (setReg Chip8.new.registers 0 10) 15 3 }

/-- A state with V15 = 1, all other registers 0, and the sprite byte 0x80 at
memory[0] (the address register is 0). -/
def sC7 : Chip8 := { Chip8.new with registers := setReg (fun _ => 0) 15 1, memory := setMem Chip8.new.memory 0 0x80 }

/-- A state with V0 = 16. -/
def sC8 : Chip8 := { Chip8.new with registers := setReg Chip8.new.registers 0 16 }

/-- A state whose address register points into program space. -/
def sW3 : Chip8 := { Chip8.new with i := 0x200 }

/-- A state with V1 = 200 and V2 = 100. -/
def sW5 : Chip8 := { Chip8.new with registers := setReg (setReg Chip8.new.registers 1 200) 2 100 }

/-- A state with V0 = 0xA. -/
def sW8 : Chip8 := { Chip8.new with registers := setReg Chip8.new.registers 0 0xA }

/-- A state with three entries on the call stack. -/
def spMid : Chip8 := { Chip8.new with sp := 3 }

/-- A state whose stack pointer already sits at the last stack slot. -/
def spFull : Chip8 := { Chip8.new with sp := 15 }

/-! ## C1 -/

/-- Claim C1: with the program [jump 0x206; padding; at 0x206 load V0 with
0x2A], after exactly two cycles of the execution loop, V0 holds 0x2A but the
program counter is 0x206, not 0x208: the main loop never advances pc past a
non-branching instruction, so the load instruction leaves pc at its own
address. -/
theorem c1_two_cycles_v0_and_pc :
    (Chip8.new.runFor c1prog (fun _ => 0) 2).map (fun t => (t.registers 0, t.pc)) = some (0x2A, 0x206) := by
  decide

/-! ## C2 -/

/-- Claim C2: a call immediately followed by a return leaves pc at the
address of the call instruction itself (0x200), not at the address after it
(0x202): the fetch never advances pc, so the call pushes its own address. -/
theorem c2_call_then_ret_pc :
    (Chip8.new.runFor c2prog (fun _ => 0) 2).map (fun t => (t.pc, t.sp)) = some (0x200, 0) := by
  decide

/-! ## C4 -/

/-- Claim C4: executing 00E0 on a state with a set pixel returns the state
completely unchanged - Chip8::cls has an empty body - so the pixel is still
set instead of the framebuffer being cleared. -/
theorem c4_cls_is_a_stub :
    Chip8.execute_opcode 0 0x00E0 sC4 = some sC4 ∧ sC4.display 0 0 = 1 :=
  ⟨rfl, rfl⟩

/-! ## C5 -/

/-- Claim C5 counterexample: for X = 15, Y = 0 with V15 = 5 and V0 = 3, the
sum 8 is not what ends up in VX: the flag store to V15 overwrites it with 0. -/
theorem c5_cex_flag_overwrites_sum :
    (sC5.add_vx_vy 15 0).map (fun t => t.registers 15) ≠
      some ((sC5.registers 15 + sC5.registers 0) % 256) := by
  decide

/-- Claim C5 (amended to X different from 15): 8XY4 stores (a + b) mod 256
into VX and sets V15 to 1 exactly when a + b exceeds 255. -/
theorem c5_add_vx_vy_spec (s : Chip8) (x y : Nat) (hx : x ≠ 15)
    (ha : s.registers x < 256) (hb : s.registers y < 256) :
    ∃ t, s.add_vx_vy x y = some t ∧
      t.registers x = (s.registers x + s.registers y) % 256 ∧
      t.registers 15 = (if 255 < s.registers x + s.registers y then 1 else 0) := by
  refine ⟨_, rfl, ?_, ?_⟩
  · simp [setReg, hx]
  · simp only [setReg, if_pos rfl]
    split_ifs with h1 h2 <;> omega

/-- Witness for c5_add_vx_vy_spec at X = 1, Y = 2, V1 = 200, V2 = 100. -/
theorem c5_add_vx_vy_spec_witness :
    (1 : Nat) ≠ 15 ∧ sW5.registers 1 < 256 ∧ sW5.registers 2 < 256 ∧
    (∃ t, sW5.add_vx_vy 1 2 = some t ∧
      t.registers 1 = (sW5.registers 1 + sW5.registers 2) % 256 ∧
      t.registers 15 = (if 255 < sW5.registers 1 + sW5.registers 2 then 1 else 0)) :=
  ⟨by decide, by decide, by decide, c5_add_vx_vy_spec sW5 1 2 (by decide) (by decide) (by decide)⟩

/-! ## C6 -/

/-- Claim C6 counterexample: for X = 0, Y = 15 with V0 = 10 and V15 = 3, 8XY5
stores 9 into V0 instead of (10 - 3) mod 256 = 7, because the flag write to
V15 happens before the subtraction reads V15. -/
theorem c6_cex_flag_written_first :
    (sC6.sub 0 15).map (fun t => t.registers 0) ≠
      some ((sC6.registers 0 + 256 - sC6.registers 15) % 256) := by
  decide

/-- Claim C6 (amended to X and Y different from 15): 8XY5 sets V15 to 1 iff
VX > VY and stores (VX - VY) mod 256 into VX; 8XY7 sets V15 to 1 iff VY > VX
and stores (VY - VX) mod 256 into VX. -/
theorem c6_sub_subn_spec (s : Chip8) (x y : Nat) (hx : x ≠ 15) (hy : y ≠ 15)
    (ha : s.registers x < 256) (hb : s.registers y < 256) :
    (∃ t, s.sub x y = some t ∧
      t.registers x = (s.registers x + 256 - s.registers y) % 256 ∧
      t.registers 15 = (if s.registers y < s.registers x then 1 else 0)) ∧
    (∃ t, s.subn x y = some t ∧
      t.registers x = (s.registers y + 256 - s.registers x) % 256 ∧
      t.registers 15 = (if s.registers x < s.registers y then 1 else 0)) := by
  constructor
  · refine ⟨_, rfl, ?_, ?_⟩
    · simp [setReg, hx, hy, wrappingSub8, Nat.mod_eq_of_lt hb]
    · simp [setReg, Ne.symm hx]
  · refine ⟨_, rfl, ?_, ?_⟩
    · simp [setReg, hx, hy, wrappingSub8, Nat.mod_eq_of_lt ha]
    · simp [setReg, Ne.symm hx]

/-- Witness for c6_sub_subn_spec at X = 1, Y = 2, V1 = 200, V2 = 100. -/
theorem c6_sub_subn_spec_witness :
    (1 : Nat) ≠ 15 ∧ (2 : Nat) ≠ 15 ∧ sW5.registers 1 < 256 ∧ sW5.registers 2 < 256 ∧
    ((∃ t, sW5.sub 1 2 = some t ∧
      t.registers 1 = (sW5.registers 1 + 256 - sW5.registers 2) % 256 ∧
      t.registers 15 = (if sW5.registers 2 < sW5.registers 1 then 1 else 0)) ∧
    (∃ t, sW5.subn 1 2 = some t ∧
      t.registers 1 = (sW5.registers 2 + 256 - sW5.registers 1) % 256 ∧
      t.registers 15 = (if sW5.registers 1 < sW5.registers 2 then 1 else 0))) :=
  ⟨by decide, by decide, by decide, by decide,
   c6_sub_subn_spec sW5 1 2 (by decide) (by decide) (by decide) (by decide)⟩

/-! ## C8 -/

/-- Claim C8 counterexample: with V0 = 16, FX29 sets the address register to
16 * 5 = 80, not to (16 mod 16) * 5 = 0: the register value is not masked to
its low nibble. -/
theorem c8_cex_no_nibble_mask :
    (sC8.ld_f_vx 0).map (fun t => t.i) ≠ some ((sC8.registers 0 % 16) * 5) := by
  decide

/-- Claim C8 (amended: no mod-16 masking): FX29 sets the address register to
the full register value times 5. -/
theorem c8_ld_f_vx_spec (s : Chip8) (x : Nat) (h : s.registers x < 256) :
    ∃ t, s.ld_f_vx x = some t ∧ t.i = s.registers x * 5 := by
  refine ⟨_, rfl, ?_⟩
  show (s.registers x * 5) % 65536 = s.registers x * 5
  exact Nat.mod_eq_of_lt (by omega)

/-- Witness for c8_ld_f_vx_spec at V0 = 0xA: the glyph offset is 50. -/
theorem c8_ld_f_vx_spec_witness :
    sW8.registers 0 < 256 ∧ (∃ t, sW8.ld_f_vx 0 = some t ∧ t.i = sW8.registers 0 * 5) ∧
    sW8.registers 0 * 5 = 50 :=
  ⟨by decide, c8_ld_f_vx_spec sW8 0 (by decide), by decide⟩

/-! ## C9 -/

/-- Claim C9: any 16-bit word whose primary opcode is 0x0 and which is
neither 00E0 nor 00EE hits the unknown-opcode panic branch of the dispatch:
no handler runs and there is no successor state. -/
theorem c9_zero_primary_decode_failure (rand w : Nat) (s : Chip8)
    (hw16 : w < 65536) (h0 : w &&& 0xF000 = 0)
    (h1 : w ≠ 0x00E0) (h2 : w ≠ 0x00EE) :
    Chip8.execute_opcode rand w s = none := by
  unfold Chip8.execute_opcode
  split
  · split
    · exact absurd rfl h1
    · exact absurd rfl h2
    · rfl
  all_goals first
    | rfl
    | (rename_i heq; rw [h0] at heq; exact absurd heq (by decide))

/-- Witness for c9_zero_primary_decode_failure at the word 0x0001. -/
theorem c9_zero_primary_decode_failure_witness :
    (0x0001 : Nat) < 65536 ∧ (0x0001 : Nat) &&& 0xF000 = 0 ∧
    ((0x0001 : Nat) ≠ 0x00E0) ∧ ((0x0001 : Nat) ≠ 0x00EE) ∧
    Chip8.execute_opcode 0 0x0001 Chip8.new = none :=
  ⟨by decide, by decide, by decide, by decide,
   c9_zero_primary_decode_failure 0 0x0001 Chip8.new (by decide) (by decide) (by decide) (by decide)⟩

/-! ## C10 -/

/-- Claim C10: the call instruction increments sp before storing, so slot 0
never holds a return address and the stack holds at most 15 of them: a call
at sp = 15 indexes stack[16] and aborts, a return at sp = 0 underflows the
u8 stack pointer and aborts, and with sp < 15 before a call or 1 <= sp <= 15
before a return neither error branch is reachable. -/
theorem c10_stack_capacity (nnn : Nat) (s : Chip8) :
    (s.sp = 15 → s.call nnn = none) ∧
    (s.sp = 0 → s.ret = none) ∧
    (s.sp < 15 → ∃ t, s.call nnn = some t ∧ t.sp = s.sp + 1 ∧
      t.stack (s.sp + 1) = s.pc ∧ t.pc = nnn) ∧
    (1 ≤ s.sp → s.sp < 16 → ∃ t, s.ret = some t ∧
      t.pc = s.stack s.sp ∧ t.sp = s.sp - 1) := by
  refine ⟨?_, ?_, ?_, ?_⟩
  · intro h; unfold Chip8.call; rw [h]; rfl
  · intro h; unfold Chip8.ret; rw [h]; rfl
  · intro h
    unfold Chip8.call
    rw [if_pos (by omega), if_pos (by omega)]
    exact ⟨_, rfl, rfl, by simp, rfl⟩
  · intro h1 h2
    unfold Chip8.ret
    rw [if_pos h2, if_neg (by omega)]
    exact ⟨_, rfl, rfl, rfl⟩

/-- Witness for c10_stack_capacity: a call at sp = 15 aborts, a return at
sp = 0 aborts, and at sp = 3 both a call and a return succeed. -/
theorem c10_stack_capacity_witness :
    (spFull.call 0x400 = none) ∧ (Chip8.new.ret = none) ∧
    (∃ t, spMid.call 0x400 = some t ∧ t.sp = spMid.sp + 1 ∧
      t.stack (spMid.sp + 1) = spMid.pc ∧ t.pc = 0x400) ∧
    (∃ t, spMid.ret = some t ∧ t.pc = spMid.stack spMid.sp ∧ t.sp = spMid.sp - 1) :=
  ⟨(c10_stack_capacity 0x400 spFull).1 rfl,
   (c10_stack_capacity 0x400 Chip8.new).2.1 rfl,
   (c10_stack_capacity 0x400 spMid).2.2.1 (by decide),
   (c10_stack_capacity 0x400 spMid).2.2.2 (by decide) (by decide)⟩

/-! ## C3: preservation of the glyph region -/

/-- The outcome o preserves the byte at address a of state s (vacuously when
the instruction aborts). -/
def MemPres (a : Nat) (s : Chip8) (o : Option Chip8) : Prop :=
  o.elim True (fun t => t.memory a = s.memory a)

theorem memPres_skipNext (a : Nat) (s : Chip8) : MemPres a s s.skipNext := by
  unfold Chip8.skipNext MemPres; split <;> simp

theorem memPres_cls (a : Nat) (s : Chip8) : MemPres a s s.cls := by
  simp [Chip8.cls, MemPres]

theorem memPres_ret (a : Nat) (s : Chip8) : MemPres a s s.ret := by
  unfold Chip8.ret MemPres; split <;> try split
  all_goals simp

theorem memPres_jp (a nnn : Nat) (s : Chip8) : MemPres a s (s.jp nnn) := by
  simp [Chip8.jp, MemPres]

theorem memPres_call (a nnn : Nat) (s : Chip8) : MemPres a s (s.call nnn) := by
  unfold Chip8.call MemPres; split <;> try split
  all_goals simp

theorem memPres_se (a x kk : Nat) (s : Chip8) : MemPres a s (s.se x kk) := by
  unfold Chip8.se; split
  · exact memPres_skipNext a s
  · simp [MemPres]

theorem memPres_sne (a x kk : Nat) (s : Chip8) : MemPres a s (s.sne x kk) := by
  unfold Chip8.sne; split
  · exact memPres_skipNext a s
  · simp [MemPres]

theorem memPres_se_vx_vy (a x y : Nat) (s : Chip8) : MemPres a s (s.se_vx_vy x y) := by
  unfold Chip8.se_vx_vy; split
  · exact memPres_skipNext a s
  · simp [MemPres]

theorem memPres_ld (a x kk : Nat) (s : Chip8) : MemPres a s (s.ld x kk) := by
  simp [Chip8.ld, MemPres]

theorem memPres_add (a x kk : Nat) (s : Chip8) : MemPres a s (s.add x kk) := by
  simp [Chip8.add, MemPres]

theorem memPres_ld_vx_vy (a x y : Nat) (s : Chip8) : MemPres a s (s.ld_vx_vy x y) := by
  simp [Chip8.ld_vx_vy, MemPres]

theorem memPres_or (a x y : Nat) (s : Chip8) : MemPres a s (s.or x y) := by
  simp [Chip8.or, MemPres]

theorem memPres_and (a x y : Nat) (s : Chip8) : MemPres a s (s.and x y) := by
  simp [Chip8.and, MemPres]

theorem memPres_xor (a x y : Nat) (s : Chip8) : MemPres a s (s.xor x y) := by
  simp [Chip8.xor, MemPres]

theorem memPres_add_vx_vy (a x y : Nat) (s : Chip8) : MemPres a s (s.add_vx_vy x y) := by
  simp [Chip8.add_vx_vy, MemPres]

theorem memPres_sub (a x y : Nat) (s : Chip8) : MemPres a s (s.sub x y) := by
  simp [Chip8.sub, MemPres]

theorem memPres_shr (a x : Nat) (s : Chip8) : MemPres a s (s.shr x) := by
  simp [Chip8.shr, MemPres]

theorem memPres_subn (a x y : Nat) (s : Chip8) : MemPres a s (s.subn x y) := by
  simp [Chip8.subn, MemPres]

theorem memPres_shl (a x : Nat) (s : Chip8) : MemPres a s (s.shl x) := by
  simp [Chip8.shl, MemPres]

theorem memPres_sne_vx_vy (a x y : Nat) (s : Chip8) : MemPres a s (s.sne_vx_vy x y) := by
  unfold Chip8.sne_vx_vy; split
  · exact memPres_skipNext a s
  · simp [MemPres]

theorem memPres_ld_i (a nnn : Nat) (s : Chip8) : MemPres a s (s.ld_i nnn) := by
  simp [Chip8.ld_i, MemPres]

theorem memPres_jp_v0 (a nnn : Nat) (s : Chip8) : MemPres a s (s.jp_v0 nnn) := by
  simp [Chip8.jp_v0, MemPres]

theorem memPres_rnd (a rand x kk : Nat) (s : Chip8) : MemPres a s (s.rnd rand x kk) := by
  simp [Chip8.rnd, MemPres]

theorem memPres_drw (a x y n : Nat) (s : Chip8) : MemPres a s (s.drw x y n) := by
  simp only [Chip8.drw, MemPres]
  split <;> simp

theorem memPres_skp (a x : Nat) (s : Chip8) : MemPres a s (s.skp x) := by
  unfold Chip8.skp; split
  · split
    · exact memPres_skipNext a s
    · simp [MemPres]
  · simp [MemPres]

theorem memPres_sknp (a x : Nat) (s : Chip8) : MemPres a s (s.sknp x) := by
  unfold Chip8.sknp; split
  · split
    · exact memPres_skipNext a s
    · simp [MemPres]
  · simp [MemPres]

theorem memPres_ld_vx_dt (a x : Nat) (s : Chip8) : MemPres a s (s.ld_vx_dt x) := by
  simp [Chip8.ld_vx_dt, MemPres]

theorem memPres_ld_vx_k (a x : Nat) (s : Chip8) : MemPres a s (s.ld_vx_k x) := by
  unfold Chip8.ld_vx_k MemPres; split <;> simp

theorem memPres_ld_dt_vx (a x : Nat) (s : Chip8) : MemPres a s (s.ld_dt_vx x) := by
  simp [Chip8.ld_dt_vx, MemPres]

theorem memPres_ld_st_vx (a x : Nat) (s : Chip8) : MemPres a s (s.ld_st_vx x) := by
  simp [Chip8.ld_st_vx, MemPres]

theorem memPres_add_i_vx (a x : Nat) (s : Chip8) : MemPres a s (s.add_i_vx x) := by
  unfold Chip8.add_i_vx MemPres; split <;> simp

theorem memPres_ld_f_vx (a x : Nat) (s : Chip8) : MemPres a s (s.ld_f_vx x) := by
  simp [Chip8.ld_f_vx, MemPres]

theorem memPres_ld_b_vx (a x : Nat) (s : Chip8) (hi : 0x50 ≤ s.i) (ha : a < 0x50) :
    MemPres a s (s.ld_b_vx x) := by
  unfold Chip8.ld_b_vx MemPres; split
  · simp only [Option.elim, setMem]
    have h2 : a ≠ s.i + 2 := by omega
    have h1 : a ≠ s.i + 1 := by omega
    have h0 : a ≠ s.i := by omega
    simp [h0, h1, h2]
  · trivial

/-- A writeSeq with a base address above a leaves the byte at a unchanged. -/
theorem writeSeq_pres (ir : Nat) (f : Nat → Nat) (a : Nat) (ha : a < ir) :
    ∀ (ks : List Nat) (m m2 : Nat → Nat), writeSeq m ir f ks = some m2 → m2 a = m a := by
  intro ks
  induction ks with
  | nil => intro m m2 h; simp [writeSeq] at h; rw [h]
  | cons k ks ih =>
      intro m m2 h
      unfold writeSeq at h
      split at h
      · have := ih (setMem m (ir + k) (f k)) m2 h
        rw [this]
        simp only [setMem]
        have : a ≠ ir + k := by omega
        simp [this]
      · exact absurd h (by simp)

theorem memPres_ld_i_vx (a x : Nat) (s : Chip8) (hi : 0x50 ≤ s.i) (ha : a < 0x50) :
    MemPres a s (s.ld_i_vx x) := by
  unfold Chip8.ld_i_vx MemPres
  split
  · rename_i m hm
    simpa using writeSeq_pres s.i (fun k => s.registers k) a (by omega) _ _ _ hm
  · trivial

theorem memPres_ld_vx_i (a x : Nat) (s : Chip8) : MemPres a s (s.ld_vx_i x) := by
  unfold Chip8.ld_vx_i MemPres; split <;> simp

/-- Claim C3 (amended: provided the address register is at least 0x50, as it
is whenever it points at the program or scratch space): executing any
instruction word on such a state leaves every byte of the glyph region
0x000-0x04F unchanged.  The restriction is necessary: FX33 and FX55 write at
the address register and clobber the glyph table when it is below 0x50. -/
theorem c3_glyph_region_preserved (rand w : Nat) (s : Chip8) (a : Nat)
    (hi : 0x50 ≤ s.i) (ha : a < 0x50) :
    (Chip8.execute_opcode rand w s).elim True (fun t => t.memory a = s.memory a) := by
  show MemPres a s (Chip8.execute_opcode rand w s)
  unfold Chip8.execute_opcode
  split
  · split
    · exact memPres_cls a s
    · exact memPres_ret a s
    · trivial
  · exact memPres_jp a _ s
  · exact memPres_call a _ s
  · exact memPres_se a _ _ s
  · exact memPres_sne a _ _ s
  · exact memPres_se_vx_vy a _ _ s
  · exact memPres_ld a _ _ s
  · exact memPres_add a _ _ s
  · split
    · exact memPres_ld_vx_vy a _ _ s
    · exact memPres_or a _ _ s
    · exact memPres_and a _ _ s
    · exact memPres_xor a _ _ s
    · exact memPres_add_vx_vy a _ _ s
    · exact memPres_sub a _ _ s
    · exact memPres_shr a _ s
    · exact memPres_subn a _ _ s
    · exact memPres_shl a _ s
    · trivial
  · exact memPres_sne_vx_vy a _ _ s
  · exact memPres_ld_i a _ s
  · exact memPres_jp_v0 a _ s
  · exact memPres_rnd a _ _ _ s
  · exact memPres_drw a _ _ _ s
  · split
    · exact memPres_skp a _ s
    · exact memPres_sknp a _ s
    · trivial
  · split
    · exact memPres_ld_vx_dt a _ s
    · exact memPres_ld_vx_k a _ s
    · exact memPres_ld_dt_vx a _ s
    · exact memPres_ld_st_vx a _ s
    · exact memPres_add_i_vx a _ s
    · exact memPres_ld_f_vx a _ s
    · exact memPres_ld_b_vx a _ s hi ha
    · exact memPres_ld_i_vx a _ s hi ha
    · exact memPres_ld_vx_i a _ s
    · trivial
  · trivial

/-- Witness for c3_glyph_region_preserved: an FX55 store executed with the
address register at 0x200 leaves glyph byte 3 unchanged. -/
theorem c3_glyph_region_preserved_witness :
    0x50 ≤ sW3.i ∧ (3 : Nat) < 0x50 ∧
    (Chip8.execute_opcode 0 0xF055 sW3).elim True (fun t => t.memory 3 = sW3.memory 3) :=
  ⟨by decide, by decide, c3_glyph_region_preserved 0 0xF055 sW3 3 (by decide) (by decide)⟩

/-- Claim C3 counterexample: loading the one-instruction program FX33 (with
X = 0) and running one cycle of the execution loop overwrites glyph byte 0:
it was 0xF0 at initialization and is 0 afterwards, because the address
register is 0 and the store-BCD instruction writes at addresses 0, 1, 2. -/
theorem c3_cex_fx33_clobbers_glyph :
    Chip8.new.memory 0 = 0xF0 ∧
    (Chip8.new.runFor [0xF0, 0x33] (fun _ => 0) 1).map (fun t => t.memory 0) = some 0 := by
  constructor
  · decide
  · decide

/-! ## C7: the draw instruction -/

/-- Membership-wise congruence for List.any. -/
theorem anyCongr (p q : Nat → Bool) : ∀ (l : List Nat), (∀ u ∈ l, p u = q u) → l.any p = l.any q := by
  intro l
  induction l with
  | nil => intro h; rfl
  | cons a t ih =>
      intro h
      simp only [List.any_cons, h a (by simp)]
      rw [ih fun u hu => h u (by simp [hu])]

/-- Pointwise description of one sprite row: when every touched column is
below the inner display bound, the row loop succeeds, XORs bit (b - xc) of
the row byte into every cell (yr mod 384, xc + j) for j in the list, and
accumulates a collision for every position where the incoming display holds
1 and the sprite bit is 1. -/
theorem drwRow_spec (line xc yr : Nat) :
    ∀ (js : List Nat) (d : Nat → Nat → Nat) (c : Bool),
      (∀ j ∈ js, xc + j < 384) → js.Nodup →
      drwRow line xc yr js (d, c) =
        some (fun a b => if a = yr % 384 ∧ (∃ u ∈ js, b = xc + u)
                then d a b ^^^ bitAt line (b - xc) else d a b,
              c || js.any (fun u => (d (yr % 384) (xc + u) == 1) && (bitAt line u == 1))) := by
  intro js
  induction js with
  | nil =>
      intro d c _ _
      have hd : (fun a b => if a = yr % 384 ∧ (∃ u ∈ ([] : List Nat), b = xc + u)
          then d a b ^^^ bitAt line (b - xc) else d a b) = d := by
        funext a b; simp
      rw [hd]
      simp [drwRow]
  | cons j js ih =>
      intro d c hb hnd
      have hj : xc + j < 384 := hb j (by simp)
      have hmod : (xc + j) % 512 = xc + j := Nat.mod_eq_of_lt (by omega)
      have hnotmem : j ∉ js := (List.nodup_cons.mp hnd).1
      simp only [drwRow, SCREEN_WIDTH, SCREEN_HEIGHT]
      rw [hmod, if_pos (show xc + j < 384 by omega)]
      rw [ih (setPix d (yr % 384) (xc + j) (d (yr % 384) (xc + j) ^^^ bitAt line j))
            (c || ((d (yr % 384) (xc + j) == 1) && (bitAt line j == 1)))
            (fun u hu => hb u (by simp [hu])) (List.nodup_cons.mp hnd).2]
      simp only [Option.some.injEq, Prod.mk.injEq]
      constructor
      · funext a b
        by_cases hA : a = yr % 384
        · subst hA
          by_cases hBj : b = xc + j
          · subst hBj
            have hnm : ¬ ∃ u ∈ js, xc + j = xc + u := by
              rintro ⟨u, hu, hbu⟩
              have huj : u = j := by omega
              subst huj; exact hnotmem hu
            have hex : ∃ u ∈ j :: js, xc + j = xc + u := ⟨j, by simp, rfl⟩
            rw [if_neg (fun h => hnm h.2), if_pos ⟨rfl, hex⟩]
            simp [setPix, Nat.add_sub_cancel_left]
          · by_cases hBmem : ∃ u ∈ js, b = xc + u
            · have hex : ∃ u ∈ j :: js, b = xc + u := by
                obtain ⟨u, hu, hbu⟩ := hBmem
                exact ⟨u, by simp [hu], hbu⟩
              rw [if_pos ⟨rfl, hBmem⟩, if_pos ⟨rfl, hex⟩]
              have hsp : setPix d (yr % 384) (xc + j)
                  (d (yr % 384) (xc + j) ^^^ bitAt line j) (yr % 384) b = d (yr % 384) b := by
                simp [setPix, hBj]
              rw [hsp]
            · have hcons : ¬ ∃ u ∈ j :: js, b = xc + u := by
                rintro ⟨u, hu, hbu⟩
                rcases List.mem_cons.mp hu with h | h
                · exact hBj (h ▸ hbu)
                · exact hBmem ⟨u, h, hbu⟩
              rw [if_neg (fun h => hBmem h.2), if_neg (fun h => hcons h.2)]
              simp [setPix, hBj]
        · rw [if_neg (fun h => hA h.1), if_neg (fun h => hA h.1)]
          simp [setPix, hA]
      · rw [List.any_cons, ← Bool.or_assoc]
        congr 1
        exact anyCongr _ _ js (fun u hu => by
          have huj : xc + u ≠ xc + j := by
            intro h
            have hu2 : u = j := by omega
            exact hnotmem (hu2 ▸ hu)
          simp [setPix, huj])

/-- Pointwise description of the whole sprite draw loop: with all row
addresses inside memory and all touched cells inside the display bounds, the
loop succeeds, XORs sprite bit (a - yc, b - xc) into every cell of the n x 8
target region, and reports a collision exactly when some incoming cell holds
1 where the sprite bit is 1. -/
theorem drwRows_spec (mem : Nat → Nat) (ir xc yc : Nat) :
    ∀ (rs : List Nat) (d : Nat → Nat → Nat) (c : Bool),
      xc + 7 < 384 →
      (∀ r ∈ rs, ir + r < 4096 ∧ yc + r < 384) → rs.Nodup →
      drwRows mem ir xc yc rs (d, c) =
        some (fun a b => if (∃ r ∈ rs, a = yc + r) ∧ (∃ u ∈ List.range 8, b = xc + u)
                then d a b ^^^ bitAt (mem (ir + (a - yc))) (b - xc) else d a b,
              c || rs.any (fun r => (List.range 8).any
                (fun u => (d (yc + r) (xc + u) == 1) && (bitAt (mem (ir + r)) u == 1)))) := by
  intro rs
  induction rs with
  | nil =>
      intro d c _ _ _
      have hd : (fun a b => if (∃ r ∈ ([] : List Nat), a = yc + r) ∧ (∃ u ∈ List.range 8, b = xc + u)
          then d a b ^^^ bitAt (mem (ir + (a - yc))) (b - xc) else d a b) = d := by
        funext a b; simp
      rw [hd]
      simp [drwRows]
  | cons r rs ih =>
      intro d c hx hb hnd
      have hm : ir + r < 4096 := (hb r (by simp)).1
      have hy : yc + r < 384 := (hb r (by simp)).2
      have hnotmem : r ∉ rs := (List.nodup_cons.mp hnd).1
      have hymod : (yc + r) % 384 = yc + r := Nat.mod_eq_of_lt hy
      simp only [drwRows]
      rw [if_pos hm]
      rw [drwRow_spec (mem (ir + r)) xc (yc + r) (List.range 8) d c
            (fun u hu => by have := List.mem_range.mp hu; omega) (List.nodup_range 8)]
      rw [hymod]
      show drwRows mem ir xc yc rs
        (fun a b => if a = yc + r ∧ (∃ u ∈ List.range 8, b = xc + u)
            then d a b ^^^ bitAt (mem (ir + r)) (b - xc) else d a b,
         c || (List.range 8).any
            (fun u => (d (yc + r) (xc + u) == 1) && (bitAt (mem (ir + r)) u == 1))) = _
      rw [ih _ _ hx (fun u hu => hb u (by simp [hu])) (List.nodup_cons.mp hnd).2]
      simp only [Option.some.injEq, Prod.mk.injEq]
      constructor
      · funext a b
        by_cases hJ : ∃ u ∈ List.range 8, b = xc + u
        · by_cases hAr : a = yc + r
          · subst hAr
            have hnm : ¬ ∃ q ∈ rs, yc + r = yc + q := by
              rintro ⟨q, hq, hyq⟩
              have hqr : q = r := by omega
              subst hqr; exact hnotmem hq
            rw [if_neg (fun h => hnm h.1), if_pos ⟨rfl, hJ⟩,
                if_pos ⟨⟨r, by simp, rfl⟩, hJ⟩]
            simp [Nat.add_sub_cancel_left]
          · by_cases hArs : ∃ q ∈ rs, a = yc + q
            · have hex : ∃ q ∈ r :: rs, a = yc + q := by
                obtain ⟨q, hq, hyq⟩ := hArs
                exact ⟨q, by simp [hq], hyq⟩
              rw [if_pos ⟨hArs, hJ⟩, if_neg (fun h => hAr h.1), if_pos ⟨hex, hJ⟩]
            · have hcons : ¬ ∃ q ∈ r :: rs, a = yc + q := by
                rintro ⟨q, hq, hyq⟩
                rcases List.mem_cons.mp hq with h | h
                · exact hAr (h ▸ hyq)
                · exact hArs ⟨q, h, hyq⟩
              rw [if_neg (fun h => hArs h.1), if_neg (fun h => hAr h.1),
                  if_neg (fun h => hcons h.1)]
        · rw [if_neg (fun h => hJ h.2), if_neg (fun h => hJ h.2), if_neg (fun h => hJ h.2)]
      · rw [List.any_cons, ← Bool.or_assoc]
        congr 1
        refine anyCongr _ _ rs (fun q hq => ?_)
        refine congrArg (List.any (List.range 8)) ?_
        funext u
        have hqr : ¬ (yc + q = yc + r) := by
          intro h
          have hq2 : q = r := by omega
          exact hnotmem (hq2 ▸ hq)
        rw [if_neg (fun h => hqr h.1)]

/-- The pointwise effect of one DXYN draw on the framebuffer (the function
drwRows produces, by drwRows_spec). -/
def drawMask (mem : Nat → Nat) (ir xc yc n : Nat) (d : Nat → Nat → Nat) : Nat → Nat → Nat :=
  fun a b => if (∃ r ∈ List.range n, a = yc + r) ∧ (∃ u ∈ List.range 8, b = xc + u)
      then d a b ^^^ bitAt (mem (ir + (a - yc))) (b - xc) else d a b

/-- The collision outcome of one DXYN draw over framebuffer d. -/
def drawHit (mem : Nat → Nat) (ir xc yc n : Nat) (d : Nat → Nat → Nat) : Bool :=
  (List.range n).any (fun r => (List.range 8).any
    (fun u => (d (yc + r) (xc + u) == 1) && (bitAt (mem (ir + r)) u == 1)))

/-- drwRows_spec restated through drawMask and drawHit. -/
theorem drwRows_spec2 (mem : Nat → Nat) (ir xc yc n : Nat) (d : Nat → Nat → Nat) (c : Bool)
    (hx : xc + 7 < 384) (hb : ∀ r ∈ List.range n, ir + r < 4096 ∧ yc + r < 384) :
    drwRows mem ir xc yc (List.range n) (d, c) =
      some (drawMask mem ir xc yc n d, c || drawHit mem ir xc yc n d) :=
  drwRows_spec mem ir xc yc (List.range n) d c hx hb (List.nodup_range n)

/-- Drawing the same mask twice restores every cell (XOR is self-inverse). -/
theorem drawMask_twice (mem : Nat → Nat) (ir xc yc n : Nat) (d : Nat → Nat → Nat) :
    ∀ a b, drawMask mem ir xc yc n (drawMask mem ir xc yc n d) a b = d a b := by
  intro a b
  unfold drawMask
  by_cases hc : (∃ r ∈ List.range n, a = yc + r) ∧ (∃ u ∈ List.range 8, b = xc + u)
  · rw [if_pos hc, if_pos hc, Nat.xor_assoc, Nat.xor_self, Nat.xor_zero]
  · rw [if_neg hc, if_neg hc]

/-- On a clear target region the draw reports no collision. -/
theorem drawHit_clear_false (mem : Nat → Nat) (ir xc yc n : Nat) (d : Nat → Nat → Nat)
    (hclear : ∀ r u, r < n → u < 8 → d (yc + r) (xc + u) = 0) :
    drawHit mem ir xc yc n d = false := by
  unfold drawHit
  rw [List.any_eq_false]
  intro r hr
  rw [Bool.not_eq_true, List.any_eq_false]
  intro u hu
  rw [hclear r u (List.mem_range.mp hr) (List.mem_range.mp hu)]
  simp

/-- After drawing a sprite with a set bit onto a clear region, drawing it
again reports a collision. -/
theorem drawHit_second_true (mem : Nat → Nat) (ir xc yc n : Nat) (d : Nat → Nat → Nat)
    (hclear : ∀ r u, r < n → u < 8 → d (yc + r) (xc + u) = 0)
    (hbit : ∃ r u, r < n ∧ u < 8 ∧ bitAt (mem (ir + r)) u = 1) :
    drawHit mem ir xc yc n (drawMask mem ir xc yc n d) = true := by
  obtain ⟨r, u, hr, hu, h1⟩ := hbit
  unfold drawHit
  rw [List.any_eq_true]
  refine ⟨r, List.mem_range.mpr hr, ?_⟩
  rw [List.any_eq_true]
  refine ⟨u, List.mem_range.mpr hu, ?_⟩
  have hm : drawMask mem ir xc yc n d (yc + r) (xc + u) = 1 := by
    unfold drawMask
    rw [if_pos ⟨⟨r, List.mem_range.mpr hr, rfl⟩, ⟨u, List.mem_range.mpr hu, rfl⟩⟩]
    rw [hclear r u hr hu, Nat.add_sub_cancel_left, Nat.add_sub_cancel_left, Nat.zero_xor, h1]
  rw [hm, h1]
  rfl

/-- Claim C7 (amended: the coordinate register indices differ from 15 and
the sprite rows lie inside memory): drawing the same sprite twice at the
same position restores every framebuffer cell, and when the target region
was clear and the sprite has a set bit, the first draw reports no collision
and the second draw reports one. -/
theorem c7_draw_twice_restores (s : Chip8) (x y n : Nat)
    (hx15 : x ≠ 15) (hy15 : y ≠ 15)
    (hxv : s.registers x < 256) (hyv : s.registers y < 256) (hn : n ≤ 15)
    (hmem : s.i + n ≤ 4096) :
    ∃ s1 s2, s.drw x y n = some s1 ∧ s1.drw x y n = some s2 ∧
      (∀ a b, s2.display a b = s.display a b) ∧
      ((∀ r u, r < n → u < 8 → s.display (s.registers y + r) (s.registers x + u) = 0) →
       (∃ r u, r < n ∧ u < 8 ∧ bitAt (s.memory (s.i + r)) u = 1) →
       s1.registers 15 = 0 ∧ s2.registers 15 = 1) := by
  have hx7 : s.registers x + 7 < 384 := by omega
  have hbnd : ∀ r ∈ List.range n, s.i + r < 4096 ∧ s.registers y + r < 384 := by
    intro r hr
    have := List.mem_range.mp hr
    constructor <;> omega
  have h1 : s.drw x y n = some { s with
      display := drawMask s.memory s.i (s.registers x) (s.registers y) n s.display,
      registers := setReg s.registers 15
        (if (false || drawHit s.memory s.i (s.registers x) (s.registers y) n s.display)
         then 1 else 0) } := by
    simp only [Chip8.drw]
    rw [drwRows_spec2 s.memory s.i (s.registers x) (s.registers y) n s.display false hx7 hbnd]
  have hregx : setReg s.registers 15
      (if (false || drawHit s.memory s.i (s.registers x) (s.registers y) n s.display)
       then 1 else 0) x = s.registers x := by
    simp [setReg, hx15]
  have hregy : setReg s.registers 15
      (if (false || drawHit s.memory s.i (s.registers x) (s.registers y) n s.display)
       then 1 else 0) y = s.registers y := by
    simp [setReg, hy15]
  have h2 : Chip8.drw x y n { s with
      display := drawMask s.memory s.i (s.registers x) (s.registers y) n s.display,
      registers := setReg s.registers 15
        (if (false || drawHit s.memory s.i (s.registers x) (s.registers y) n s.display)
         then 1 else 0) } = some { s with
      display := drawMask s.memory s.i (s.registers x) (s.registers y) n
        (drawMask s.memory s.i (s.registers x) (s.registers y) n s.display),
      registers := setReg (setReg s.registers 15
        (if (false || drawHit s.memory s.i (s.registers x) (s.registers y) n s.display)
         then 1 else 0)) 15
        (if (false || drawHit s.memory s.i (s.registers x) (s.registers y) n
            (drawMask s.memory s.i (s.registers x) (s.registers y) n s.display))
         then 1 else 0) } := by
    simp only [Chip8.drw]
    rw [hregx, hregy, drwRows_spec2 s.memory s.i (s.registers x) (s.registers y) n
      (drawMask s.memory s.i (s.registers x) (s.registers y) n s.display) false hx7 hbnd]
  refine ⟨_, _, h1, h2, ?_, ?_⟩
  · intro a b
    exact drawMask_twice s.memory s.i (s.registers x) (s.registers y) n s.display a b
  · intro hclear hbit
    constructor
    · show setReg s.registers 15
        (if (false || drawHit s.memory s.i (s.registers x) (s.registers y) n s.display)
         then 1 else 0) 15 = 0
      rw [drawHit_clear_false s.memory s.i (s.registers x) (s.registers y) n s.display hclear]
      rfl
    · show setReg (setReg s.registers 15
        (if (false || drawHit s.memory s.i (s.registers x) (s.registers y) n s.display)
         then 1 else 0)) 15
        (if (false || drawHit s.memory s.i (s.registers x) (s.registers y) n
            (drawMask s.memory s.i (s.registers x) (s.registers y) n s.display))
         then 1 else 0) 15 = 1
      rw [drawHit_second_true s.memory s.i (s.registers x) (s.registers y) n s.display hclear hbit]
      rfl

/-- Claim C7 counterexample: with the first coordinate taken from V15 (= 1)
and the sprite byte 0x80 at the address register, drawing twice with the
same operands D F 0 1 does not restore the framebuffer: the first draw sets
V15 to 0 (the collision flag), so the second draw lands at column 0 instead
of column 1 and the pixel at row 0, column 1 stays set. -/
theorem c7_cex_draw_twice_vf_coordinate :
    ((sC7.drw 15 0 1).bind (fun t => t.drw 15 0 1)).map (fun t => t.display 0 1) ≠
      some (sC7.display 0 1) := by
  decide

/-- Witness for c7_draw_twice_restores: the initial machine, coordinates
from V0 and V1 (both 0), address register 0 (sprite byte 0xF0), one row. -/
theorem c7_draw_twice_restores_witness :
    (0 : Nat) ≠ 15 ∧ (1 : Nat) ≠ 15 ∧
    Chip8.new.registers 0 < 256 ∧ Chip8.new.registers 1 < 256 ∧
    (1 : Nat) ≤ 15 ∧ Chip8.new.i + 1 ≤ 4096 ∧
    (∃ s1 s2, Chip8.new.drw 0 1 1 = some s1 ∧ s1.drw 0 1 1 = some s2 ∧
      (∀ a b, s2.display a b = Chip8.new.display a b) ∧
      ((∀ r u, r < 1 → u < 8 →
          Chip8.new.display (Chip8.new.registers 1 + r) (Chip8.new.registers 0 + u) = 0) →
       (∃ r u, r < 1 ∧ u < 8 ∧ bitAt (Chip8.new.memory (Chip8.new.i + r)) u = 1) →
       s1.registers 15 = 0 ∧ s2.registers 15 = 1)) :=
  ⟨by decide, by decide, by decide, by decide, by decide, by decide,
   c7_draw_twice_restores Chip8.new 0 1 1 (by decide) (by decide) (by decide)
     (by decide) (by decide) (by decide)⟩
